import Mathlib

/-!
Verification development for a MinIO ingestion pipeline
(`pipeline.py`, configuration in `config.py`).

The pipeline watches a folder for CSV files; for each file it waits for the
file to become stable, loads its rows, filters them by an age predicate,
stages the filtered rows in a temp file, uploads the staging file to an
object store, archives the source into a date-partitioned tree, and marks a
dirty flag read by a periodic log-flush scheduler.

Shallow embedding conventions:
- pandas data frames are modelled as a column-name list plus a list of rows,
  each row a list of integer cell values aligned with the columns;
- the outcomes of external calls (file reads, object-store calls) are passed
  in as explicit inputs, so every function is a pure, executable definition;
- clock readings are passed in as natural numbers (seconds since the epoch,
  interpreted in UTC).
-/

namespace MinIOPipeline

/-! ## Data frames and the row filter (`filter_data`, pipeline.py lines 350-355) -/

/-- Model of a pandas DataFrame: the column names, and the rows of integer
cell values, each row aligned positionally with `cols`. -/
structure DataFrame where
  cols : List String
  cells : List (List Int)
deriving DecidableEq, Repr

/-- Index of a column name in the column list (pandas column lookup). -/
def colIdx (cols : List String) (c : String) : Nat :=
  cols.indexOf c

/-- Value of a row at a column position; 0 when the row is ragged. -/
def cellAt (row : List Int) (i : Nat) : Int :=
  row.getD i 0

/-- The age value of a row given the frame's columns. -/
def ageAt (cols : List String) (row : List Int) : Int :=
  cellAt row (colIdx cols "age")

/-- The column values of a frame as a series (pandas df of one column). -/
def seriesOf (df : DataFrame) (c : String) : List Int :=
  df.cells.map (fun r => cellAt r (colIdx df.cols c))

/-- Element-wise comparison mask of a series against a lower bound
(pandas df over a column with a scalar ≥ comparison). -/
def geMask (xs : List Int) (k : Int) : List Bool :=
  xs.map (fun v => decide (k ≤ v))

/-- Element-wise comparison mask of a series against an upper bound. -/
def leMask (xs : List Int) (k : Int) : List Bool :=
  xs.map (fun v => decide (v ≤ k))

/-- Element-wise conjunction of two boolean masks (pandas mask and-combination). -/
def andMask (a b : List Bool) : List Bool :=
  List.zipWith Bool.and a b

/-- Boolean-mask row selection (pandas boolean indexing). -/
def maskSelect (rows : List (List Int)) (mask : List Bool) : List (List Int) :=
  (List.zip rows mask).filterMap (fun rb => if rb.2 then some rb.1 else none)

/-- Embeds `MinIOPipeline.filter_data` (pipeline.py lines 350-355): if the
column named age is absent the frame is returned unchanged; otherwise the
rows are selected by the conjunction of the two hard-coded comparison masks
`df[age] >= 18` and `df[age] <= 40`. -/
def filter_data (df : DataFrame) : DataFrame :=
  if "age" ∈ df.cols then
    { cols := df.cols
      cells := maskSelect df.cells
        (andMask (geMask (seriesOf df "age") 18) (leMask (seriesOf df "age") 40)) }
  else df

/-- Modelled from the spec's words (§4.4, claim C3): the row filter that the
spec describes, parametric in the CONFIGURED bounds (config.py
filter_conditions { age_range { min, max } }): pass-through when the column
is absent, otherwise keep exactly the rows whose value lies in the closed
interval of the configured bounds. To be compared with `filter_data`, which
is translated from the source. -/
def filterDataSpecBounds (lo hi : Int) (df : DataFrame) : DataFrame :=
  if "age" ∈ df.cols then
    { cols := df.cols
      cells := df.cells.filter (fun r => decide (lo ≤ ageAt df.cols r ∧ ageAt df.cols r ≤ hi)) }
  else df

/-! ## Bucket versioning normalization (`enable_bucket_versioning`, pipeline.py lines 143-164) -/

/-- Python str.strip's notion of ASCII whitespace. -/
def isPySpace (c : Char) : Bool :=
  decide (c = ' ') || decide (c = Char.ofNat 9) || decide (c = Char.ofNat 10) ||
  decide (c = Char.ofNat 13) || decide (c = Char.ofNat 11) || decide (c = Char.ofNat 12)

/-- Python str.strip on a character list: drop leading and trailing whitespace. -/
def pyStrip (l : List Char) : List Char :=
  ((l.dropWhile isPySpace).reverse.dropWhile isPySpace).reverse

/-- Worker for Python str.title: the first letter of each alphabetic run is
upper-cased, subsequent letters lower-cased; other characters pass through
and reset the run. -/
def pyTitleGo : Bool → List Char → List Char
  | _, [] => []
  | prevAlpha, c :: cs =>
    if c.isAlpha then
      (if prevAlpha then c.toLower else c.toUpper) :: pyTitleGo true cs
    else
      c :: pyTitleGo false cs

/-- Python str.title on a character list (ASCII-letter approximation). -/
def pyTitle (l : List Char) : List Char :=
  pyTitleGo false l

/-- Observable outcome of `enable_bucket_versioning`: the payload of the
put-bucket-versioning call when one was made, and the returned boolean. -/
structure VersioningResult where
  callMade : Option (List Char)
  returned : Bool
deriving DecidableEq, Repr

/-- Embeds `MinIOPipeline.enable_bucket_versioning` (pipeline.py lines
143-164). `cfgVal` is the configured bucket_versioning string (none when the
key is absent, defaulted to the empty string by config.get); `putOk` is
whether the put_bucket_versioning call succeeds (a ClientError is caught and
reported as false). The configured value is stripped and title-cased; the
call is made only when the normalization is Enabled or Suspended. -/
def enable_bucket_versioning (cfgVal : Option (List Char)) (putOk : Bool) : VersioningResult :=
  let status := pyTitle (pyStrip (cfgVal.getD []))
  if status = "Enabled".data ∨ status = "Suspended".data then
    if putOk then ⟨some status, true⟩ else ⟨some status, false⟩
  else
    ⟨none, false⟩

/-! ## Calendar dates and strftime-style formatting

`datetime.fromtimestamp` and `datetime.now().strftime(...)` are modelled over
epoch seconds interpreted in UTC, with the standard civil-from-days
conversion. -/

/-- Civil calendar date (year, month, day) from a count of days since
1970-01-01. -/
def civilFromDays (z0 : Nat) : Nat × Nat × Nat :=
  let z := z0 + 719468
  let era := z / 146097
  let doe := z % 146097
  let yoe := (doe - doe / 1460 + doe / 36524 - doe / 146096) / 365
  let y := yoe + era * 400
  let doy := doe - (365 * yoe + yoe / 4 - yoe / 100)
  let mp := (5 * doy + 2) / 153
  let d := doy - (153 * mp + 2) / 5 + 1
  let m := if mp < 10 then mp + 3 else mp - 9
  (if m ≤ 2 then y + 1 else y, m, d)

/-- Zero-padded two-digit decimal rendering (strftime %m, %d, %H, %M, %S). -/
def pad2 (n : Nat) : String :=
  if n < 10 then "0" ++ toString n else toString n

/-- strftime "%Y/%m/%d" of a timestamp in epoch seconds (used by both
`upload_to_minio` on the current time and `archive_source_file` on the
file's mtime). -/
def dateStructure (secs : Nat) : String :=
  let ymd := civilFromDays (secs / 86400)
  toString ymd.1 ++ "/" ++ pad2 ymd.2.1 ++ "/" ++ pad2 ymd.2.2

/-- strftime "%Y%m%d_%H%M%S" of a timestamp in epoch seconds (used by
`save_temp_file` for the staging file name). -/
def timestampCompact (secs : Nat) : String :=
  let ymd := civilFromDays (secs / 86400)
  let r := secs % 86400
  toString ymd.1 ++ pad2 ymd.2.1 ++ pad2 ymd.2.2 ++ "_" ++
    pad2 (r / 3600) ++ pad2 (r % 3600 / 60) ++ pad2 (r % 60)

/-! ## The per-file workflow (`process_file`, pipeline.py lines 282-322) -/

/-- The configuration fields the per-file workflow reads (from MINIO_CONFIG
in config.py). -/
structure PipelineConfig where
  tempFolder : String
  archiveFolder : String
  s3pref : String
deriving DecidableEq, Repr

/-- Inputs of one run of the per-file workflow: the source file's name
parts, and the outcomes of the external interactions, passed in explicitly:
the stability-wait result, the parse result (none models a read_csv
exception), the file's mtime, the current clock, and success flags of the
staging write, the object-store upload and the archive rename. -/
structure FileInput where
  stem : String
  fileName : String
  stable : Bool
  parsed : Option DataFrame
  mtime : Nat
  now : Nat
  saveOk : Bool
  uploadOk : Bool
  archiveOk : Bool
deriving DecidableEq, Repr

/-- Name of the staging file written by `save_temp_file` (pipeline.py lines
357-367): filtered_{stem}_{timestamp}.csv. -/
def temp_file_name (inp : FileInput) : String :=
  "filtered_" ++ inp.stem ++ "_" ++ timestampCompact inp.now ++ ".csv"

/-- Full path of the staging file under the temp folder. -/
def temp_file_path (cfg : PipelineConfig) (inp : FileInput) : String :=
  cfg.tempFolder ++ "/" ++ temp_file_name inp

/-- Object key used by `upload_to_minio` (pipeline.py lines 369-386):
{s3_prefix}/{YYYY}/{MM}/{DD}/{staging file name}, the date taken from the
CURRENT time. -/
def upload_s3_key (cfg : PipelineConfig) (inp : FileInput) : String :=
  cfg.s3pref ++ "/" ++ dateStructure inp.now ++ "/" ++ temp_file_name inp

/-- Destination computed by `archive_source_file` (pipeline.py lines
388-402): {archive_folder}/{YYYY}/{MM}/{DD}/{original name}, the date taken
from the file's MTIME; intermediate directories are created with
mkdir(parents=True, exist_ok=True), modelled as always succeeding. -/
def archive_dest (archiveFolder : String) (mtime : Nat) (name : String) : String :=
  archiveFolder ++ "/" ++ dateStructure mtime ++ "/" ++ name

/-- How one run of the per-file workflow ended. -/
inductive Outcome where
  | success
  | abortUnstable
  | abortEmpty
  | error
deriving DecidableEq, Repr

/-- The exception that ended an errored run. -/
inductive PErr where
  | readError
  | saveError
  | uploadError
deriving DecidableEq, Repr

/-- Observable effects of one run of the per-file workflow. -/
structure ProcessResult where
  tempWritten : Option String
  stagedRows : Option DataFrame
  uploadedKey : Option String
  archived : Option String
  tempDeleted : Bool
  dirtySet : Bool
  outcome : Outcome
  loggedError : Option PErr
deriving DecidableEq, Repr

/-- Embeds the body of `MinIOPipeline.process_file` after admission
(pipeline.py lines 290-322). Control flow of the source: early return when
the file never became stable; read_csv (an exception goes to the except
branch); early return when the frame is empty; filter; save the staging
file; upload (an exception goes to the except branch); archive (the source
catches its own errors and never raises); unlink the staging file; mark the
dirty flag. The except branch also marks the dirty flag; the two early
returns do not. -/
def process_file (cfg : PipelineConfig) (inp : FileInput) : ProcessResult :=
  if inp.stable = false then
    ⟨none, none, none, none, false, false, .abortUnstable, none⟩
  else
    match inp.parsed with
    | none => ⟨none, none, none, none, false, true, .error, some .readError⟩
    | some df =>
      if df.cells.isEmpty then
        ⟨none, none, none, none, false, false, .abortEmpty, none⟩
      else if inp.saveOk = false then
        ⟨none, none, none, none, false, true, .error, some .saveError⟩
      else if inp.uploadOk = false then
        ⟨some (temp_file_path cfg inp), some (filter_data df), none, none,
          false, true, .error, some .uploadError⟩
      else
        ⟨some (temp_file_path cfg inp), some (filter_data df),
          some (upload_s3_key cfg inp),
          if inp.archiveOk then some (archive_dest cfg.archiveFolder inp.mtime inp.fileName) else none,
          true, true, .success, none⟩

/-- How the try-block of `process_file` exits when no exception escapes it:
an early return, or completion. -/
inductive BodyExit where
  | unstable
  | empty
  | completed (temp key : String) (archived : Option String)
deriving DecidableEq, Repr

/-- The try-block of `process_file` (steps 3-9) as a fallible computation:
`.error` is an exception reaching the except branch of the source. -/
def processFileBody (cfg : PipelineConfig) (inp : FileInput) : Except PErr BodyExit :=
  if inp.stable = false then .ok .unstable
  else
    match inp.parsed with
    | none => .error .readError
    | some df =>
      if df.cells.isEmpty then .ok .empty
      else if inp.saveOk = false then .error .saveError
      else if inp.uploadOk = false then .error .uploadError
      else .ok (.completed (temp_file_path cfg inp) (upload_s3_key cfg inp)
        (if inp.archiveOk then some (archive_dest cfg.archiveFolder inp.mtime inp.fileName) else none))

/-! ## Log flush state (`upload_log_file` and `check_and_upload_logs`,
pipeline.py lines 75-122) -/

/-- The scheduler-visible log-flush state: last_log_upload_time and the
logs_accumulated dirty flag. -/
structure LogFlushState where
  lastFlushTime : Nat
  dirty : Bool
deriving DecidableEq, Repr

/-- Result of one `check_and_upload_logs` tick: the new flush state, the
local log file's content after the tick, and the returned boolean. -/
structure FlushResult where
  newState : LogFlushState
  newLog : String
  flushed : Bool
deriving DecidableEq, Repr

/-- Embeds `MinIOPipeline.upload_log_file` (pipeline.py lines 75-101):
uploads the log and truncates it to empty only when the upload succeeded;
any exception is caught and reported as false, leaving the content alone.
Returns (returned boolean, log content afterwards). -/
def upload_log_file (uploadOk : Bool) (logContent : String) : Bool × String :=
  if uploadOk then (true, "") else (false, logContent)

/-- Embeds `MinIOPipeline.check_and_upload_logs` (pipeline.py lines
107-122): when the interval has elapsed since lastFlushTime AND the dirty
flag is set, call upload_log_file — its returned boolean is IGNORED — then
set lastFlushTime to the current time and clear the dirty flag, returning
true; otherwise leave everything unchanged and return false. -/
def check_and_upload_logs (interval now : Nat) (uploadOk : Bool)
    (st : LogFlushState) (logContent : String) : FlushResult :=
  if interval ≤ now - st.lastFlushTime ∧ st.dirty = true then
    let up := upload_log_file uploadOk logContent
    ⟨⟨now, false⟩, up.2, true⟩
  else
    ⟨st, logContent, false⟩

/-! ## Stability detector (`wait_for_file_stable`, pipeline.py lines 324-348)

The file's size over time is an input `size : Nat → Option Nat`, indexed in
ticks of 0.5 seconds from the start of the wait; `none` models a stat call
raising FileNotFoundError. One loop iteration polls at tick t; the
confirmation branch sleeps 2 seconds (4 ticks) and re-reads at t + 4, and a
failed confirmation resumes the loop 0.5 seconds later at t + 5. The
timeout in seconds becomes a bound T in ticks on the loop condition; the
fuel argument equals T and only enforces termination, since t grows by at
least one per iteration. -/

/-- Loop of `wait_for_file_stable`: `last` is the previous poll's size
(none models the initial last_size = -1 sentinel). -/
def waitGo (size : Nat → Option Nat) (T : Nat) : Nat → Nat → Option Nat → Bool
  | 0, _, _ => false
  | fuel + 1, t, last =>
    if t < T then
      match size t with
      | none => false
      | some cur =>
        if 0 < cur ∧ last = some cur then
          match size (t + 4) with
          | none => false
          | some fin => if fin = cur then true else waitGo size T fuel (t + 5) (some cur)
        else waitGo size T fuel (t + 1) (some cur)
    else false

/-- Embeds `MinIOPipeline.wait_for_file_stable` (pipeline.py lines 324-348)
with the timeout expressed as T ticks of 0.5 seconds. -/
def wait_for_file_stable (size : Nat → Option Nat) (T : Nat) : Bool :=
  waitGo size T T 0 none

/-! ## Coordinator admission and the in-flight set
(`process_file` admission, pipeline.py lines 282-288 and 321-322;
semaphore construction, lines 30-33)

The bounded-concurrency dispatch is modelled as a transition system over
the spawned per-file tasks: a task acquires one of the K semaphore slots,
then checks the in-flight set (processing_files); a duplicate path returns
at once, otherwise the path is inserted and the workflow body runs; every
exit of an admitted workflow (the finally block) removes the path, and
leaving the async-with releases the slot. -/

/-- How an admitted workflow exited, or that a task bounced off the
duplicate check. -/
inductive ExitKind where
  | success
  | earlyAbort
  | err
  | duplicate
deriving DecidableEq, Repr

/-- Control position of one spawned per-file task. -/
inductive Phase where
  | spawned
  | acquired
  | running
  | done (k : ExitKind)
deriving DecidableEq, Repr

/-- One spawned per-file task: its path (paths as naturals) and phase. -/
structure Task where
  path : Nat
  phase : Phase
deriving DecidableEq, Repr

/-- Global coordinator state: all spawned tasks, and the processing_files
in-flight set as a list. -/
structure GState where
  tasks : List Task
  inflight : List Nat
deriving DecidableEq, Repr

/-- Whether a task currently holds a semaphore slot (inside the async-with
block). -/
def holdsSlot (t : Task) : Bool :=
  match t.phase with
  | .acquired => true
  | .running => true
  | _ => false

/-- Number of semaphore slots currently held. -/
def slotsHeld (ts : List Task) : Nat :=
  (ts.filter holdsSlot).length

/-- Whether a task is inside the try block with its path inserted. -/
def isRunning (t : Task) : Bool :=
  match t.phase with
  | .running => true
  | _ => false

/-- Paths of the tasks currently running their workflow body. -/
def runningPaths (ts : List Task) : List Nat :=
  (ts.filter isRunning).map Task.path

/-- One interleaving step of the coordinator model with concurrency limit
K. Each constructor changes exactly one task, selected by its position
l₁ ++ task :: l₂ in the task list. -/
inductive Step (K : Nat) : GState → GState → Prop where
  | acquire (l₁ l₂ : List Task) (p : Nat) (fl : List Nat)
      (hK : slotsHeld (l₁ ++ ⟨p, .spawned⟩ :: l₂) < K) :
      Step K ⟨l₁ ++ ⟨p, .spawned⟩ :: l₂, fl⟩ ⟨l₁ ++ ⟨p, .acquired⟩ :: l₂, fl⟩
  | dupReturn (l₁ l₂ : List Task) (p : Nat) (fl : List Nat)
      (hmem : p ∈ fl) :
      Step K ⟨l₁ ++ ⟨p, .acquired⟩ :: l₂, fl⟩ ⟨l₁ ++ ⟨p, .done .duplicate⟩ :: l₂, fl⟩
  | insertRun (l₁ l₂ : List Task) (p : Nat) (fl : List Nat)
      (hmem : p ∉ fl) :
      Step K ⟨l₁ ++ ⟨p, .acquired⟩ :: l₂, fl⟩ ⟨l₁ ++ ⟨p, .running⟩ :: l₂, p :: fl⟩
  | finish (l₁ l₂ : List Task) (p : Nat) (fl : List Nat) (k : ExitKind)
      (hk : k ≠ .duplicate) :
      Step K ⟨l₁ ++ ⟨p, .running⟩ :: l₂, fl⟩ ⟨l₁ ++ ⟨p, .done k⟩ :: l₂, fl.erase p⟩

/-- States reachable from a fresh start: any collection of spawned tasks
and an empty in-flight set, closed under steps. -/
inductive Reach (K : Nat) : GState → Prop where
  | init (paths : List Nat) :
      Reach K ⟨paths.map (fun p => ⟨p, Phase.spawned⟩), []⟩
  | step {s s' : GState} : Reach K s → Step K s s' → Reach K s'

/-- The coordinator invariant: the in-flight list has no duplicates, at
most K slots are held, and the in-flight list is a permutation of the paths
of the running tasks. -/
structure Inv (K : Nat) (s : GState) : Prop where
  nodup : s.inflight.Nodup
  slots : slotsHeld s.tasks ≤ K
  perm : s.inflight.Perm (runningPaths s.tasks)

/-! ## Helper lemmas about the coordinator model -/

theorem slotsHeld_append (l₁ l₂ : List Task) :
    slotsHeld (l₁ ++ l₂) = slotsHeld l₁ + slotsHeld l₂ := by
  simp [slotsHeld, List.filter_append]

theorem slotsHeld_cons (t : Task) (ts : List Task) :
    slotsHeld (t :: ts) = (if holdsSlot t then 1 else 0) + slotsHeld ts := by
  simp only [slotsHeld, List.filter_cons]
  split <;> simp [Nat.add_comm]

theorem runningPaths_append (l₁ l₂ : List Task) :
    runningPaths (l₁ ++ l₂) = runningPaths l₁ ++ runningPaths l₂ := by
  simp [runningPaths, List.filter_append]

theorem runningPaths_cons (t : Task) (ts : List Task) :
    runningPaths (t :: ts) =
      (if isRunning t then [t.path] else []) ++ runningPaths ts := by
  simp only [runningPaths, List.filter_cons]
  split <;> simp_all

theorem isRunning_iff (t : Task) : isRunning t = true ↔ t.phase = Phase.running := by
  cases h : t.phase <;> simp [isRunning, h]

theorem isRunning_imp_holdsSlot (t : Task) (h : isRunning t = true) :
    holdsSlot t = true := by
  cases hp : t.phase <;> simp [isRunning, holdsSlot, hp] at h ⊢

theorem length_filter_mono (f g : Task → Bool)
    (h : ∀ a, f a = true → g a = true) (l : List Task) :
    (l.filter f).length ≤ (l.filter g).length := by
  induction l with
  | nil => simp
  | cons a l ih =>
    simp only [List.filter_cons]
    by_cases hf : f a = true
    · rw [if_pos hf, if_pos (h a hf)]
      simpa using Nat.succ_le_succ ih
    · rw [if_neg hf]
      split
      · exact Nat.le_trans ih (by simp)
      · exact ih

/-- Each coordinator step preserves the invariant. -/
theorem inv_step {K : Nat} {s s' : GState} (h : Inv K s) (hs : Step K s s') :
    Inv K s' := by
  cases hs with
  | acquire l₁ l₂ p fl hK =>
    have hperm := h.perm
    have hslots := h.slots
    refine ⟨h.nodup, ?_, ?_⟩
    · simp [slotsHeld_append, slotsHeld_cons, holdsSlot] at hK ⊢
      omega
    · simpa [runningPaths_append, runningPaths_cons, isRunning]
        using hperm
  | dupReturn l₁ l₂ p fl hmem =>
    have hperm := h.perm
    have hslots := h.slots
    refine ⟨h.nodup, ?_, ?_⟩
    · simp [slotsHeld_append, slotsHeld_cons, holdsSlot] at hslots ⊢
      omega
    · simpa [runningPaths_append, runningPaths_cons, isRunning]
        using hperm
  | insertRun l₁ l₂ p fl hmem =>
    have hperm := h.perm
    have hslots := h.slots
    have hperm' : fl.Perm (runningPaths l₁ ++ runningPaths l₂) := by
      simpa [runningPaths_append, runningPaths_cons, isRunning] using hperm
    refine ⟨?_, ?_, ?_⟩
    · exact List.nodup_cons.mpr ⟨hmem, h.nodup⟩
    · simp [slotsHeld_append, slotsHeld_cons, holdsSlot] at hslots ⊢
      omega
    · have hgoal : (p :: fl).Perm (runningPaths l₁ ++ p :: runningPaths l₂) :=
        (hperm'.cons p).trans List.perm_middle.symm
      simpa [runningPaths_append, runningPaths_cons, isRunning] using hgoal
  | finish l₁ l₂ p fl k hk =>
    have hperm := h.perm
    have hslots := h.slots
    have hperm' : fl.Perm (runningPaths l₁ ++ p :: runningPaths l₂) := by
      simpa [runningPaths_append, runningPaths_cons, isRunning] using hperm
    have hnd : (runningPaths l₁ ++ p :: runningPaths l₂).Nodup :=
      hperm'.nodup h.nodup
    have hpA : p ∉ runningPaths l₁ := by
      rw [List.nodup_append] at hnd
      intro hp
      exact hnd.2.2 hp (List.mem_cons_self p _)
    refine ⟨h.nodup.erase p, ?_, ?_⟩
    · simp [slotsHeld_append, slotsHeld_cons, holdsSlot] at hslots ⊢
      omega
    · have he : (runningPaths l₁ ++ p :: runningPaths l₂).erase p =
          runningPaths l₁ ++ runningPaths l₂ := by
        rw [List.erase_append_right _ hpA, List.erase_cons_head]
      have := hperm'.erase p
      rw [he] at this
      simpa [runningPaths_append, runningPaths_cons, isRunning] using this

/-- Every reachable coordinator state satisfies the invariant. -/
theorem reach_inv {K : Nat} {s : GState} (h : Reach K s) : Inv K s := by
  induction h with
  | init paths =>
    refine ⟨List.nodup_nil, ?_, ?_⟩
    · have : slotsHeld (paths.map (fun p => ⟨p, Phase.spawned⟩)) = 0 := by
        induction paths with
        | nil => rfl
        | cons q qs ih => simpa [slotsHeld_cons, holdsSlot] using ih
      simp [this]
    · have : runningPaths (paths.map (fun p => (⟨p, Phase.spawned⟩ : Task))) = [] := by
        induction paths with
        | nil => rfl
        | cons q qs ih => simpa [runningPaths_cons, isRunning] using ih
      simp [this]
  | step _ hs ih => exact inv_step ih hs

/-- Any step changes exactly one task, the changed task was not yet done,
and its path is preserved. -/
theorem step_local {K : Nat} {s s' : GState} (h : Step K s s') :
    ∃ l₁ t t' l₂, s.tasks = l₁ ++ t :: l₂ ∧ s'.tasks = l₁ ++ t' :: l₂ ∧
      t.path = t'.path ∧ ∀ k, t.phase ≠ Phase.done k := by
  cases h with
  | acquire l₁ l₂ p fl hK =>
    exact ⟨l₁, _, _, l₂, rfl, rfl, rfl, fun k hc => by cases hc⟩
  | dupReturn l₁ l₂ p fl hmem =>
    exact ⟨l₁, _, _, l₂, rfl, rfl, rfl, fun k hc => by cases hc⟩
  | insertRun l₁ l₂ p fl hmem =>
    exact ⟨l₁, _, _, l₂, rfl, rfl, rfl, fun k hc => by cases hc⟩
  | finish l₁ l₂ p fl k hk =>
    exact ⟨l₁, _, _, l₂, rfl, rfl, rfl, fun k hc => by cases hc⟩

/-! ## Helper lemmas about the stability detector -/

/-- Soundness of the polling loop: whenever it reports stability, some poll
within the timeout read the same nonzero size as the immediately preceding
poll, and the re-read four ticks (two seconds) later still agreed. The
hypothesis carries where the current `last` value was read. -/
theorem waitGo_sound (size : Nat → Option Nat) (T : Nat) :
    ∀ fuel t last,
      (∀ s, last = some s → ∃ t0, (t = t0 + 1 ∨ t = t0 + 5) ∧ t0 < T ∧ size t0 = some s) →
      waitGo size T fuel t last = true →
      ∃ t0 t1 s, 0 < s ∧ (t1 = t0 + 1 ∨ t1 = t0 + 5) ∧ t0 < T ∧ t1 < T ∧
        size t0 = some s ∧ size t1 = some s ∧ size (t1 + 4) = some s := by
  intro fuel
  induction fuel with
  | zero =>
    intro t last _ h
    simp [waitGo] at h
  | succ n ih =>
    intro t last hinv h
    rw [waitGo] at h
    by_cases htT : t < T
    · rw [if_pos htT] at h
      cases hz : size t with
      | none => rw [hz] at h; dsimp only at h; cases h
      | some cur =>
        rw [hz] at h
        dsimp only at h
        by_cases hc : 0 < cur ∧ last = some cur
        · rw [if_pos hc] at h
          cases hz4 : size (t + 4) with
          | none => rw [hz4] at h; dsimp only at h; cases h
          | some fin =>
            rw [hz4] at h
            dsimp only at h
            by_cases hfc : fin = cur
            · obtain ⟨t0, ht0, ht0T, hs0⟩ := hinv cur hc.2
              exact ⟨t0, t, cur, hc.1, ht0, ht0T, htT, hs0, hz, by rw [hz4, hfc]⟩
            · rw [if_neg hfc] at h
              exact ih (t + 5) (some cur)
                (fun s hs => ⟨t, Or.inr rfl, htT, by rw [hz]; exact hs⟩) h
        · rw [if_neg hc] at h
          exact ih (t + 1) (some cur)
            (fun s hs => ⟨t, Or.inl rfl, htT, by rw [hz]; exact hs⟩) h
    · rw [if_neg htT] at h
      cases h

/-! ## Helper lemmas about the row filter -/

/-- Selecting the rows of a list by a boolean mask computed from the rows
themselves equals a direct filter. -/
theorem zip_self_mask_filter (p : List Int → Bool) (l : List (List Int)) :
    (l.zip (l.map p)).filterMap (fun rb => if rb.2 then some rb.1 else none) =
      l.filter p := by
  induction l with
  | nil => rfl
  | cons a l ih =>
    simp only [List.map_cons, List.zip_cons_cons, List.filterMap_cons, List.filter_cons]
    cases hb : p a with
    | false => simp [hb, ih]
    | true => simp [hb, ih]

/-- The element-wise conjunction of two masks mapped from the same list is
the mask of the conjoined predicate. -/
theorem andMask_map (f g : List Int → Bool) (l : List (List Int)) :
    andMask (l.map f) (l.map g) = l.map (fun a => f a && g a) := by
  induction l with
  | nil => rfl
  | cons a l ih => simp [andMask, ih]

/-- Boolean-mask selection by the conjunction of two mapped masks equals a
direct filter. -/
theorem maskSelect_and_filter (f g : List Int → Bool) (l : List (List Int)) :
    maskSelect l (andMask (l.map f) (l.map g)) = l.filter (fun r => f r && g r) := by
  unfold maskSelect
  rw [andMask_map]
  exact zip_self_mask_filter _ l

/-! ## Shared concrete examples -/

/-- Example configuration for concrete evaluations. -/
def cfgEx : PipelineConfig := ⟨"data/temp", "data/archive", "processed-data"⟩

/-- Example frame with an age column, ages 15, 18, 40, 41. -/
def dfEx : DataFrame := ⟨["age"], [[15], [18], [40], [41]]⟩

/-- Example frame with an age column and zero rows. -/
def dfEmptyEx : DataFrame := ⟨["age"], []⟩

/-- Example input for a fully successful workflow run. -/
def inpOkEx : FileInput :=
  ⟨"batch", "batch.csv", true, some dfEx, 1700000000, 1700003600, true, true, true⟩

/-- Example input for a workflow whose file never became stable. -/
def inpUnstableEx : FileInput :=
  ⟨"batch", "batch.csv", false, some dfEx, 1700000000, 1700003600, true, true, true⟩

/-- Example input for a workflow that loaded zero rows. -/
def inpEmptyEx : FileInput :=
  ⟨"batch", "batch.csv", true, some dfEmptyEx, 1700000000, 1700003600, true, true, true⟩

/-- Example input for a workflow whose object-store upload fails. -/
def inpUploadFailEx : FileInput :=
  ⟨"batch", "batch.csv", true, some dfEx, 1700000000, 1700003600, true, false, true⟩

/-! ## Claim theorems -/

/-- Claim C3, counterexample: the claim says that with the CONFIGURED bounds
a row survives iff its value lies within them. With configured bounds 19-40
(AGE_MIN=19) and a frame holding one row of age 18, `filter_data` — which
hard-codes 18 and 40 — keeps the row, while the spec-mandated filter drops
it, so the claim as stated is false. -/
theorem filter_data_configured_bounds_cex :
    filter_data ⟨["age"], [[18]]⟩ = ⟨["age"], [[18]]⟩ ∧
    filterDataSpecBounds 19 40 ⟨["age"], [[18]]⟩ = ⟨["age"], []⟩ ∧
    filter_data ⟨["age"], [[18]]⟩ ≠ filterDataSpecBounds 19 40 ⟨["age"], [[18]]⟩ := by
  refine ⟨?_, ?_, ?_⟩ <;> decide

/-- Claim C3 (amended): the Row Filter passes every row through unchanged
when the age column is absent; when it is present, a row survives iff its
age value v satisfies 18 ≤ v ≤ 40 with the bounds HARD-CODED at 18 and 40
(the configured filter bounds are not consulted), inclusive on both ends. -/
theorem filter_data_hardcoded_bounds (df : DataFrame) :
    ("age" ∉ df.cols → filter_data df = df) ∧
    ("age" ∈ df.cols → (filter_data df).cols = df.cols ∧
      (filter_data df).cells = df.cells.filter
        (fun r => decide (18 ≤ ageAt df.cols r) && decide (ageAt df.cols r ≤ 40))) := by
  constructor
  · intro h
    simp [filter_data, h]
  · intro h
    refine ⟨by simp [filter_data, h], ?_⟩
    simp only [filter_data, if_pos h]
    have hge : geMask (seriesOf df "age") 18 =
        df.cells.map (fun r => decide (18 ≤ ageAt df.cols r)) := by
      simp [geMask, seriesOf, ageAt, List.map_map, Function.comp]
    have hle : leMask (seriesOf df "age") 40 =
        df.cells.map (fun r => decide (ageAt df.cols r ≤ 40)) := by
      simp [leMask, seriesOf, ageAt, List.map_map, Function.comp]
    rw [hge, hle, maskSelect_and_filter]

/-- Witness for claim C3's amended theorem at a concrete frame with the age
column present. -/
theorem filter_data_hardcoded_bounds_witness :
    (filter_data dfEx).cols = dfEx.cols ∧
    (filter_data dfEx).cells = dfEx.cells.filter
      (fun r => decide (18 ≤ ageAt dfEx.cols r) && decide (ageAt dfEx.cols r ≤ 40)) :=
  (filter_data_hardcoded_bounds dfEx).2 (by decide)

/-- Claim C10: the configured bucket-versioning value is stripped of
surrounding whitespace and title-cased; when the normalization is Enabled
or Suspended the versioning call is made with the normalized value, and for
any other configured string (or an absent value) no call is made and the
operation returns false. -/
theorem enable_bucket_versioning_normalization (v : Option (List Char)) (ok : Bool) :
    ((pyTitle (pyStrip (v.getD [])) = "Enabled".data ∨
      pyTitle (pyStrip (v.getD [])) = "Suspended".data) →
      (enable_bucket_versioning v ok).callMade = some (pyTitle (pyStrip (v.getD [])))) ∧
    ((pyTitle (pyStrip (v.getD [])) ≠ "Enabled".data ∧
      pyTitle (pyStrip (v.getD [])) ≠ "Suspended".data) →
      (enable_bucket_versioning v ok).callMade = none ∧
      (enable_bucket_versioning v ok).returned = false) := by
  constructor
  · intro h
    simp only [enable_bucket_versioning]
    rw [if_pos h]
    cases ok <;> rfl
  · intro h
    simp only [enable_bucket_versioning]
    rw [if_neg (by tauto)]
    exact ⟨rfl, rfl⟩

/-- Witness for claim C10: the value with whitespace and upper-case letters
normalizes to Suspended and triggers a call with the normalized payload;
the value Disabled makes no call and reports false. -/
theorem enable_bucket_versioning_normalization_witness :
    (enable_bucket_versioning (some " SUSPENDED ".data) true).callMade =
      some (pyTitle (pyStrip ((some " SUSPENDED ".data).getD []))) ∧
    (enable_bucket_versioning (some "Disabled".data) true).callMade = none ∧
    (enable_bucket_versioning (some "Disabled".data) true).returned = false :=
  ⟨(enable_bucket_versioning_normalization (some " SUSPENDED ".data) true).1 (by decide),
   ((enable_bucket_versioning_normalization (some "Disabled".data) true).2 (by decide)).1,
   ((enable_bucket_versioning_normalization (some "Disabled".data) true).2 (by decide)).2⟩

/-- Claim C1, counterexample: the claim says that after a failed upload
attempt both LogFlushState fields remain unchanged. With a due, dirty state
⟨0, true⟩ at time 60 and a FAILED upload, `check_and_upload_logs` still
resets the state to ⟨60, false⟩ — the fields do not remain unchanged, so
the claim as stated is false (the local log content, by contrast, is left
in place). -/
theorem check_and_upload_logs_failed_upload_cex :
    (check_and_upload_logs 60 60 false ⟨0, true⟩ "logline").newState = ⟨60, false⟩ ∧
    (⟨60, false⟩ : LogFlushState) ≠ (⟨0, true⟩ : LogFlushState) ∧
    (check_and_upload_logs 60 60 false ⟨0, true⟩ "logline").newLog = "logline" := by
  refine ⟨?_, ?_, ?_⟩ <;> decide

/-- Claim C1 (amended): on every due tick (interval elapsed and dirty set),
the flush attempt resets the LogFlushState unconditionally — dirty is
cleared and last_flush_time set to now even when the upload failed, so a
later tick does NOT retry the flush; only the truncation of the local log
is gated on upload success, so its content survives a failed upload. -/
theorem check_and_upload_logs_reset_unconditional (interval now : Nat) (ok : Bool)
    (st : LogFlushState) (log : String)
    (hdue : interval ≤ now - st.lastFlushTime) (hdirty : st.dirty = true) :
    (check_and_upload_logs interval now ok st log).newState = ⟨now, false⟩ ∧
    (check_and_upload_logs interval now ok st log).flushed = true ∧
    (check_and_upload_logs interval now ok st log).newLog = (if ok then "" else log) := by
  simp only [check_and_upload_logs, upload_log_file]
  rw [if_pos ⟨hdue, hdirty⟩]
  cases ok <;> exact ⟨rfl, rfl, rfl⟩

/-- Witness for claim C1's amended theorem at a due dirty state with a
failed upload. -/
theorem check_and_upload_logs_reset_unconditional_witness :
    (check_and_upload_logs 60 60 false ⟨0, true⟩ "x").newState = ⟨60, false⟩ ∧
    (check_and_upload_logs 60 60 false ⟨0, true⟩ "x").flushed = true ∧
    (check_and_upload_logs 60 60 false ⟨0, true⟩ "x").newLog = (if false then "" else "x") :=
  check_and_upload_logs_reset_unconditional 60 60 false ⟨0, true⟩ "x" (by decide) rfl

/-- Claim C2, counterexample: the claim says the dirty flag is set to true
on exit of every admitted workflow, including early aborts. An admitted
workflow whose file never became stable exits with the dirty flag still
false, and so does one that loaded zero rows, so the claim as stated is
false. -/
theorem process_file_dirty_cex :
    (process_file cfgEx inpUnstableEx).outcome = Outcome.abortUnstable ∧
    (process_file cfgEx inpUnstableEx).dirtySet = false ∧
    (process_file cfgEx inpEmptyEx).outcome = Outcome.abortEmpty ∧
    (process_file cfgEx inpEmptyEx).dirtySet = false := by
  refine ⟨?_, ?_, ?_, ?_⟩ <;> rfl

/-- Claim C2 (amended): for every admitted per-file workflow, the dirty
flag is set on exit exactly when the workflow ran to completion or ended in
an exception; the two early-abort returns (file never became stable, or the
loaded row set was empty) leave the flag untouched. -/
theorem process_file_dirty_iff_completed_or_error (cfg : PipelineConfig) (inp : FileInput) :
    (process_file cfg inp).dirtySet = true ↔
      ((process_file cfg inp).outcome = Outcome.success ∨
       (process_file cfg inp).outcome = Outcome.error) := by
  unfold process_file
  by_cases hs : inp.stable = false
  · rw [if_pos hs]
    simp
  · rw [if_neg hs]
    cases hp : inp.parsed with
    | none => simp
    | some df =>
      dsimp only
      by_cases hie : df.cells.isEmpty
      · rw [if_pos hie]
        simp
      · rw [if_neg hie]
        by_cases hsv : inp.saveOk = false
        · rw [if_pos hsv]
          simp
        · rw [if_neg hsv]
          by_cases hup : inp.uploadOk = false
          · rw [if_pos hup]
            simp
          · rw [if_neg hup]
            simp

/-- Claim C4: in every reachable coordinator state, the in-flight set holds
each path at most once, its size never exceeds the concurrency limit K, and
every entry is owned by a task currently running its workflow body — so on
every exit path (success, early abort, or error; the finish step is
parametric in the exit kind and the duplicate return never inserted) the
path has been removed and the slot, counted by slotsHeld, released. -/
theorem inflight_invariant (K : Nat) (s : GState) (h : Reach K s) :
    s.inflight.Nodup ∧ s.inflight.length ≤ K ∧
      ∀ p, p ∈ s.inflight →
        ∃ t, t ∈ s.tasks ∧ t.phase = Phase.running ∧ t.path = p := by
  have hi := reach_inv h
  refine ⟨hi.nodup, ?_, ?_⟩
  · have h1 := hi.perm.length_eq
    have h2 : (runningPaths s.tasks).length ≤ slotsHeld s.tasks := by
      have := length_filter_mono isRunning holdsSlot isRunning_imp_holdsSlot s.tasks
      simpa [runningPaths, slotsHeld] using this
    have h3 := hi.slots
    omega
  · intro p hp
    have hmem : p ∈ runningPaths s.tasks := hi.perm.mem_iff.mp hp
    simp only [runningPaths, List.mem_map, List.mem_filter] at hmem
    obtain ⟨t, ⟨ht, hr⟩, hpath⟩ := hmem
    exact ⟨t, ht, (isRunning_iff t).mp hr, hpath⟩

/-- Witness for claim C4 at a state reached by spawning one task for path 7
with K = 2, acquiring a slot and admitting the path. -/
theorem inflight_invariant_witness :
    ([7] : List Nat).Nodup ∧ ([7] : List Nat).length ≤ 2 ∧
      ∀ p, p ∈ ([7] : List Nat) →
        ∃ t, t ∈ [(⟨7, Phase.running⟩ : Task)] ∧ t.phase = Phase.running ∧ t.path = p :=
  inflight_invariant 2 ⟨[⟨7, Phase.running⟩], [7]⟩
    (Reach.step
      (Reach.step (Reach.init [7]) (Step.acquire [] [] 7 [] (by decide)))
      (Step.insertRun [] [] 7 [] (by decide)))

/-- Claim C5: the stability wait reports true only when some poll, taken
within the timeout, read the same nonzero size as the immediately preceding
poll (one tick earlier, or five ticks earlier when a confirmation re-read
intervened) and the re-read four ticks (two seconds) after it still read
that size; consequently it reports false when the path is gone at the first
poll, when the file's size never becomes nonzero, and when the file is
still growing at every poll. -/
theorem wait_for_file_stable_spec (size : Nat → Option Nat) (T : Nat) :
    (wait_for_file_stable size T = true →
      ∃ t0 t1 s, 0 < s ∧ (t1 = t0 + 1 ∨ t1 = t0 + 5) ∧ t0 < T ∧ t1 < T ∧
        size t0 = some s ∧ size t1 = some s ∧ size (t1 + 4) = some s) ∧
    (size 0 = none → wait_for_file_stable size T = false) ∧
    ((∀ t v, size t = some v → v = 0) → wait_for_file_stable size T = false) ∧
    ((∀ t0 t1 v0 v1, t0 < t1 → size t0 = some v0 → size t1 = some v1 → v0 < v1) →
      wait_for_file_stable size T = false) := by
  refine ⟨?_, ?_, ?_, ?_⟩
  · intro h
    exact waitGo_sound size T T 0 none (fun s hs => by cases hs) h
  · intro h0
    cases T with
    | zero => rfl
    | succ n =>
      show waitGo size (n + 1) (n + 1) 0 none = false
      rw [waitGo, if_pos (Nat.succ_pos n), h0]
  · intro hz
    cases hres : wait_for_file_stable size T with
    | false => rfl
    | true =>
      obtain ⟨t0, t1, s, hspos, _, _, _, hs0, _, _⟩ :=
        waitGo_sound size T T 0 none (fun s hs => by cases hs) hres
      exact absurd (hz t0 s hs0) (by omega)
  · intro hmono
    cases hres : wait_for_file_stable size T with
    | false => rfl
    | true =>
      obtain ⟨t0, t1, s, hspos, ht01, _, _, hs0, hs1, _⟩ :=
        waitGo_sound size T T 0 none (fun s hs => by cases hs) hres
      have hlt : t0 < t1 := by omega
      exact absurd (hmono t0 t1 s s hlt hs0 hs1) (by omega)

/-- Witness for claim C5: a file of constant size 5 is confirmed stable
within a timeout of 3 ticks, producing the confirming polls. -/
theorem wait_for_file_stable_spec_witness :
    ∃ t0 t1 s, 0 < s ∧ (t1 = t0 + 1 ∨ t1 = t0 + 5) ∧ t0 < 3 ∧ t1 < 3 ∧
      (fun _ : Nat => (some 5 : Option Nat)) t0 = some s ∧
      (fun _ : Nat => (some 5 : Option Nat)) t1 = some s ∧
      (fun _ : Nat => (some 5 : Option Nat)) (t1 + 4) = some s :=
  (wait_for_file_stable_spec (fun _ => some 5) 3).1 (by decide)

/-- Claim C6: a workflow that reaches the archive step moves the source to
{archive_folder}/{YYYY}/{MM}/{DD}/{original name} with the date components
derived from the file's last-modified timestamp, and the destination is
unchanged under any change of the current clock — so re-archiving the same
file with the same mtime yields the same destination path. -/
theorem archive_dest_from_mtime (cfg : PipelineConfig) (inp : FileInput) (df : DataFrame)
    (hst : inp.stable = true) (hp : inp.parsed = some df) (hne : df.cells.isEmpty = false)
    (hsv : inp.saveOk = true) (hup : inp.uploadOk = true) (har : inp.archiveOk = true) :
    (process_file cfg inp).archived =
      some (cfg.archiveFolder ++ "/" ++ dateStructure inp.mtime ++ "/" ++ inp.fileName) ∧
    ∀ now2, (process_file cfg { inp with now := now2 }).archived =
      (process_file cfg inp).archived := by
  constructor
  · simp [process_file, hst, hp, hne, hsv, hup, har, archive_dest]
  · intro now2
    simp [process_file, hst, hp, hne, hsv, hup, har]

/-- Witness for claim C6 at a concrete successful run. -/
theorem archive_dest_from_mtime_witness :
    (process_file cfgEx inpOkEx).archived =
      some (cfgEx.archiveFolder ++ "/" ++ dateStructure inpOkEx.mtime ++ "/" ++ inpOkEx.fileName) ∧
    ∀ now2, (process_file cfgEx { inpOkEx with now := now2 }).archived =
      (process_file cfgEx inpOkEx).archived :=
  archive_dest_from_mtime cfgEx inpOkEx dfEx rfl rfl rfl rfl rfl rfl

/-- Claim C7: an exception in steps 3-9 of an admitted workflow is caught
at the task level: whenever the fallible body ends in an exception, the
workflow still returns an ordinary result recording the logged error and
setting the dirty flag; moreover every coordinator step changes exactly one
task (sibling tasks and the dispatch loop are untouched), and no step acts
on a finished task, so a failed file is never retried. -/
theorem per_file_errors_contained :
    (∀ cfg inp e, processFileBody cfg inp = Except.error e →
      (process_file cfg inp).outcome = Outcome.error ∧
      (process_file cfg inp).loggedError = some e ∧
      (process_file cfg inp).dirtySet = true) ∧
    (∀ K : Nat, ∀ s s' : GState, Step K s s' →
      ∃ l₁ t t' l₂, s.tasks = l₁ ++ t :: l₂ ∧ s'.tasks = l₁ ++ t' :: l₂ ∧
        t.path = t'.path ∧ ∀ k, t.phase ≠ Phase.done k) := by
  constructor
  · intro cfg inp e h
    unfold processFileBody at h
    unfold process_file
    by_cases hs : inp.stable = false
    · rw [if_pos hs] at h
      exact absurd h (by simp)
    · rw [if_neg hs] at h
      rw [if_neg hs]
      cases hp : inp.parsed with
      | none =>
        rw [hp] at h
        dsimp only at h
        injection h with he
        subst he
        exact ⟨rfl, rfl, rfl⟩
      | some df =>
        rw [hp] at h
        dsimp only at h ⊢
        by_cases hie : df.cells.isEmpty
        · rw [if_pos hie] at h
          exact absurd h (by simp)
        · rw [if_neg hie] at h
          rw [if_neg hie]
          by_cases hsv : inp.saveOk = false
          · rw [if_pos hsv] at h
            rw [if_pos hsv]
            injection h with he
            subst he
            exact ⟨rfl, rfl, rfl⟩
          · rw [if_neg hsv] at h
            rw [if_neg hsv]
            by_cases hup : inp.uploadOk = false
            · rw [if_pos hup] at h
              rw [if_pos hup]
              injection h with he
              subst he
              exact ⟨rfl, rfl, rfl⟩
            · rw [if_neg hup] at h
              exact absurd h (by simp)
  · exact fun K s s' h => step_local h

/-- Witness for claim C7 at a concrete run whose upload fails. -/
theorem per_file_errors_contained_witness :
    (process_file cfgEx inpUploadFailEx).outcome = Outcome.error ∧
    (process_file cfgEx inpUploadFailEx).loggedError = some PErr.uploadError ∧
    (process_file cfgEx inpUploadFailEx).dirtySet = true :=
  per_file_errors_contained.1 cfgEx inpUploadFailEx PErr.uploadError rfl

/-- Claim C8: a workflow whose loaded row set is empty aborts without error
right after loading: no staging file is written, no upload key is produced,
and no archive move happens. -/
theorem empty_rows_abort_no_effects (cfg : PipelineConfig) (inp : FileInput) (df : DataFrame)
    (hst : inp.stable = true) (hp : inp.parsed = some df) (he : df.cells = []) :
    (process_file cfg inp).outcome = Outcome.abortEmpty ∧
    (process_file cfg inp).loggedError = none ∧
    (process_file cfg inp).tempWritten = none ∧
    (process_file cfg inp).uploadedKey = none ∧
    (process_file cfg inp).archived = none := by
  have hie : df.cells.isEmpty = true := by rw [he]; rfl
  unfold process_file
  rw [if_neg (by rw [hst]; simp), hp]
  dsimp only
  rw [if_pos hie]
  exact ⟨rfl, rfl, rfl, rfl, rfl⟩

/-- Witness for claim C8 at a concrete zero-row input. -/
theorem empty_rows_abort_no_effects_witness :
    (process_file cfgEx inpEmptyEx).outcome = Outcome.abortEmpty ∧
    (process_file cfgEx inpEmptyEx).loggedError = none ∧
    (process_file cfgEx inpEmptyEx).tempWritten = none ∧
    (process_file cfgEx inpEmptyEx).uploadedKey = none ∧
    (process_file cfgEx inpEmptyEx).archived = none :=
  empty_rows_abort_no_effects cfgEx inpEmptyEx dfEmptyEx rfl rfl rfl

/-- Claim C9: when the upload of step 7 fails after the staging artifact
was written, the artifact is not deleted — it remains at its temp path and
the run ends in error; and the cleanup of step 9 runs only on the success
path, since a deleted staging file implies the run completed successfully. -/
theorem staging_artifact_survives_failed_upload :
    (∀ cfg inp df, inp.stable = true → inp.parsed = some df → df.cells.isEmpty = false →
      inp.saveOk = true → inp.uploadOk = false →
      (process_file cfg inp).tempWritten = some (temp_file_path cfg inp) ∧
      (process_file cfg inp).tempDeleted = false ∧
      (process_file cfg inp).outcome = Outcome.error) ∧
    (∀ cfg inp, (process_file cfg inp).tempDeleted = true →
      (process_file cfg inp).outcome = Outcome.success) := by
  constructor
  · intro cfg inp df hst hp hne hsv hup
    unfold process_file
    rw [if_neg (by rw [hst]; simp), hp]
    dsimp only
    rw [if_neg (by rw [hne]; simp), if_neg (by rw [hsv]; simp), if_pos hup]
    exact ⟨rfl, rfl, rfl⟩
  · intro cfg inp h
    unfold process_file at h ⊢
    by_cases hs : inp.stable = false
    · rw [if_pos hs] at h
      cases h
    · rw [if_neg hs] at h ⊢
      cases hp : inp.parsed with
      | none =>
        rw [hp] at h
        dsimp only at h
        cases h
      | some df =>
        rw [hp] at h
        dsimp only at h
        dsimp only
        by_cases hie : df.cells.isEmpty
        · rw [if_pos hie] at h
          cases h
        · rw [if_neg hie] at h ⊢
          by_cases hsv : inp.saveOk = false
          · rw [if_pos hsv] at h
            cases h
          · rw [if_neg hsv] at h ⊢
            by_cases hup : inp.uploadOk = false
            · rw [if_pos hup] at h
              cases h
            · rw [if_neg hup] at h ⊢

/-- Witness for claim C9 at a concrete run whose upload fails after
staging. -/
theorem staging_artifact_survives_failed_upload_witness :
    (process_file cfgEx inpUploadFailEx).tempWritten =
      some (temp_file_path cfgEx inpUploadFailEx) ∧
    (process_file cfgEx inpUploadFailEx).tempDeleted = false ∧
    (process_file cfgEx inpUploadFailEx).outcome = Outcome.error :=
  staging_artifact_survives_failed_upload.1 cfgEx inpUploadFailEx dfEx rfl rfl rfl rfl rfl

end MinIOPipeline
